import Mathlib

/-!
Verification of the word-segmentation logic of whisper_api.py.

The transcription endpoint transcribe_audio_sse (lines 55 to 107) slices the
uploaded audio into one padded clip per recognised word, saves each clip with
save_word_audio (lines 46 to 53) and collects per-word metadata.  The pure
computations of that loop are embedded below: timestamps in seconds are
rationals, a pydub AudioSegment is a list whose elements each stand for one
millisecond of audio, and the Python builtins used by the code, namely int(),
slicing, str.strip and the sanitisation in save_word_audio, are modelled
explicitly.  The external recognizer is treated as a black box: its output,
segments holding words with start and end timestamps, is the input of the
embedded functions.
-/

namespace WhisperApi

/-- Truncation toward zero: the Python builtin int() applied to a real value,
modelled on the rationals. -/
def pyInt (q : ℚ) : ℤ := if q < 0 then ⌈q⌉ else ⌊q⌋

/-- Normalisation of one Python slice endpoint for a sequence of length n:
a negative index counts from the end and the result is clamped into [0, n]. -/
def sliceIdx (n : ℕ) (i : ℤ) : ℕ :=
  if i < 0 then ((n : ℤ) + i).toNat else min i.toNat n

/-- Python slice xs[i:j] on a list, with the usual clamping semantics: the
operation is total and never fails, whatever the endpoints are. -/
def pySlice (xs : List α) (i j : ℤ) : List α :=
  (xs.take (sliceIdx xs.length j)).drop (sliceIdx xs.length i)

/-- Python str.strip with no argument: remove leading and trailing whitespace
(line 90 applies it to the raw word text). -/
def pyStrip (s : String) : String :=
  ((s.data.dropWhile Char.isWhitespace).reverse.dropWhile Char.isWhitespace).reverse.asString

/-- Decimal digit list of a natural number, the reference form of Nat.repr used
to reason about the word index embedded in generated filenames. -/
def decRepr (n : ℕ) : List Char :=
  if _h : n < 10 then [Nat.digitChar n]
  else decRepr (n / 10) ++ [Nat.digitChar (n % 10)]
decreasing_by exact Nat.div_lt_self (by omega) (by omega)

/-- One recognised word as delivered by the recognizer: raw text under the key
named word, and timestamps in seconds under the keys named start and end.  The
word end is a reserved word in Lean, so that field is called stop here. -/
structure Word where
  word  : String
  start : ℚ
  stop  : ℚ
deriving Repr, DecidableEq

/-- One recognizer segment; the loop only reads its word list (line 89). -/
structure Segment where
  words : List Word
deriving Repr, DecidableEq

/-- Lines 88 and 89: all words of all segments, in segment order then word
order, exactly the iteration order of the nested for loops. -/
def words_of (segments : List Segment) : List Word :=
  (segments.map Segment.words).flatten

/-- Setting OUTPUT_DIR (line 24). -/
def OUTPUT_DIR : String := "audio_output"

/-- Setting PADDING_SEC (line 25): 150 ms of padding before and after a word. -/
def PADDING_SEC : ℚ := 3 / 20

/-- Sanitisation inside save_word_audio (line 48): keep, among the first 20
characters of the word text, those that are alphanumeric, a hyphen or an
underscore, replace spaces by underscores (a no-op after the filter, kept for
faithfulness) and fall back to the placeholder text word when nothing is left.
Python str.isalnum is modelled by Char.isAlphanum. -/
def safe_word (word_text : String) : String :=
  let kept := (word_text.data.take 20).filter fun c => c.isAlphanum || c == '-' || c == '_'
  let replaced := kept.map fun c => if c == ' ' then '_' else c
  if replaced = [] then "word" else replaced.asString

/-- Filename built by save_word_audio (lines 47 to 49) from the strftime
timestamp (format %Y%m%d_%H%M%S_%f, a 22 character string, passed here as a
parameter), the word index and the sanitised word text. -/
def word_filename (timestamp : String) (word_index : ℕ) (word_text : String) : String :=
  timestamp ++ "_word" ++ toString word_index ++ "_" ++ safe_word word_text ++ ".wav"

/-- Join of two path components, os.path.join on relative paths (line 50). -/
def os_path_join (a b : String) : String := a ++ "/" ++ b

/-- Result of a successful save_word_audio call: the returned filename, the
path written to, and the exported samples. -/
structure SavedFile (α : Type) where
  filename : String
  path     : String
  content  : List α
deriving Repr, DecidableEq

/-- Helper save_word_audio (lines 46 to 53): builds the filename and exports
the clip directly under OUTPUT_DIR.  It has exactly three parameters besides
the implicit current time. -/
def save_word_audio (timestamp : String) (audio_segment : List α) (word_index : ℕ)
    (word_text : String) : SavedFile α :=
  let filename := word_filename timestamp word_index word_text
  { filename := filename
    path := os_path_join OUTPUT_DIR filename
    content := audio_segment }

/-- Errors relevant to the embedded code paths.  A TypeError is what Python
raises for a call whose argument count does not match the callee; InvalidInput
is the validation error named by the spec, which the source never raises. -/
inductive PyErr
  | typeError
  | invalidInput
deriving Repr, DecidableEq

/-- Number of parameters of save_word_audio as defined on line 46. -/
def save_word_audio_arity : ℕ := 3

/-- Number of arguments of the save_word_audio call on line 94. -/
def save_word_audio_call_argc : ℕ := 4

/-- The call on line 94, save_word_audio with the four arguments word_audio,
word_counter, word_text and upload_folder.  Python checks the argument count
against the parameter list of line 46 when the call is made, before the body
runs, and raises TypeError on a mismatch. -/
def call_save_word_audio (timestamp : String) (word_clip : List α) (word_counter : ℕ)
    (word_text : String) (upload_folder : String) : Except PyErr (SavedFile α) :=
  if save_word_audio_call_argc = save_word_audio_arity then
    .ok (save_word_audio timestamp word_clip word_counter word_text)
  else
    .error .typeError

/-- Line 91: start_ms = max(int((w.start - PADDING_SEC) * 1000), 0).  The
padding is kept as a parameter so statements can quantify over it; the code
instantiates it with PADDING_SEC. -/
def start_ms (padding : ℚ) (w : Word) : ℤ :=
  max (pyInt ((w.start - padding) * 1000)) 0

/-- Line 92: end_ms = min(int((w.end + PADDING_SEC) * 1000), len(audio)), the
pydub length len(audio) being the duration in milliseconds.  The arithmetic is
evaluated here exactly on the rationals; the variant end_ms_f64 below applies
the binary64 rounding of the actual Python float expression to each
operation. -/
def end_ms (audio_len : ℕ) (padding : ℚ) (w : Word) : ℤ :=
  min (pyInt ((w.stop + padding) * 1000)) (audio_len : ℤ)

/-- Line 93: word_audio = audio[start_ms:end_ms], a pydub slice by
milliseconds. -/
def word_audio (audio : List α) (padding : ℚ) (w : Word) : List α :=
  pySlice audio (start_ms padding w) (end_ms audio.length padding w)

/-- One record of words_info as appended on lines 95 to 101. -/
structure WordInfo where
  index : ℕ
  word  : String
  start : ℚ
  stop  : ℚ
  url   : String
deriving Repr, DecidableEq

/-- The per-word loop of transcribe_audio_sse (lines 88 to 103) with its
running word_counter.  Each iteration strips the word text (line 90), slices
the padded clip (lines 91 to 93), performs the four argument call to
save_word_audio (line 94) and appends the metadata record (lines 95 to 101). -/
def process_words (timestamp upload_folder : String) (audio : List α) :
    ℕ → List Word → Except PyErr (List (SavedFile α × WordInfo))
  | _, [] => .ok []
  | word_counter, w :: ws =>
    let word_text := pyStrip w.word
    let clip := word_audio audio PADDING_SEC w
    match call_save_word_audio timestamp clip word_counter word_text upload_folder with
    | .error e => .error e
    | .ok saved =>
      match process_words timestamp upload_folder audio (word_counter + 1) ws with
      | .error e => .error e
      | .ok rest =>
        .ok ((saved,
          { index := word_counter
            word := word_text
            start := w.start
            stop := w.stop
            url := "/audio/" ++ upload_folder ++ "/" ++ saved.filename }) :: rest)

/-- The whole word-processing phase of transcribe_audio_sse: the loop of lines
88 to 103 run over every word of every segment, starting from counter 0. -/
def transcribe_words (timestamp upload_folder : String) (audio : List α)
    (segments : List Segment) : Except PyErr (List (SavedFile α × WordInfo)) :=
  process_words timestamp upload_folder audio 0 (words_of segments)

/-- The values the loop body of lines 90 to 101 computes for one word: the
filename that the call of line 94 asks save_word_audio to build, the sliced
clip of line 93, and the metadata record of lines 95 to 101. -/
structure WordOut (α : Type) where
  filename : String
  clip     : List α
  info     : WordInfo
deriving Repr, DecidableEq

/-- Loop body computation for the word at 0-based position i (lines 90 to
101). -/
def word_out (timestamp upload_folder : String) (audio : List α) (padding : ℚ)
    (i : ℕ) (w : Word) : WordOut α :=
  let word_text := pyStrip w.word
  let filename := word_filename timestamp i word_text
  { filename := filename
    clip := word_audio audio padding w
    info := { index := i
              word := word_text
              start := w.start
              stop := w.stop
              url := "/audio/" ++ upload_folder ++ "/" ++ filename } }

/-- The ordered per-word outputs of one run of the segmentation loop (lines 88
to 103): one WordOut per word, indexed by position in iteration order. -/
def segment_run (timestamp upload_folder : String) (audio : List α) (padding : ℚ)
    (segments : List Segment) : List (WordOut α) :=
  (words_of segments).enum.map fun iw => word_out timestamp upload_folder audio padding iw.1 iw.2

/-- Computation of lines 91 to 93 over a word list, wrapped in Except so that
statements about failure can be made: the source validates neither the padding
nor the timestamps and has no raise in these lines, so every input takes the
ok branch. -/
def segment (audio : List α) (ws : List Word) (padding : ℚ) :
    Except PyErr (List (List α)) :=
  .ok (ws.map fun w => word_audio audio padding w)

/-- Boundary formula of spec section 4.1 for the clip start, in samples at
rate sr: start_sample = max(round((w.start - padding) * sr), 0). -/
def spec_start_sample (sr : ℕ) (padding : ℚ) (w : Word) : ℤ :=
  max (round ((w.start - padding) * sr)) 0

/-- Boundary formula of spec section 4.1 for the clip end, in samples at rate
sr: end_sample = min(round((w.end + padding) * sr), length(audio)). -/
def spec_end_sample (audio_len sr : ℕ) (padding : ℚ) (w : Word) : ℤ :=
  min (round ((w.stop + padding) * sr)) (audio_len : ℤ)

/-- Round a rational to the nearest integer, ties to even: the rounding mode
of IEEE-754 arithmetic. -/
def roundEven (q : ℚ) : ℤ :=
  if q - (⌊q⌋ : ℚ) < 1/2 then ⌊q⌋
  else if (1/2 : ℚ) < q - (⌊q⌋ : ℚ) then ⌊q⌋ + 1
  else if 2 ∣ ⌊q⌋ then ⌊q⌋ else ⌊q⌋ + 1

/-- IEEE-754 binary64 rounding of an exact rational value: round to nearest,
ties to even, at 53 significant bits.  The definition covers the normal finite
range, which contains every value arising in this development.  Python floats
are binary64: the literal 0.15 of line 25, the whisper timestamps, and the
result of each arithmetic operation on lines 91 and 92 are values of this
form. -/
def fl64 (q : ℚ) : ℚ :=
  if q = 0 then 0
  else if q < 0 then
    -((roundEven (-q * 2 ^ ((52 : ℤ) - Int.log 2 (-q))) : ℚ) * 2 ^ (Int.log 2 (-q) - 52))
  else
    (roundEven (q * 2 ^ ((52 : ℤ) - Int.log 2 q)) : ℚ) * 2 ^ (Int.log 2 q - 52)

/-- The binary64 value CPython stores for the literal 0.15 of line 25. -/
def PADDING_SEC_F64 : ℚ := fl64 (3 / 20)

/-- Line 91 under binary64 float semantics: w.start and the padding are
already doubles, and the subtraction and the multiplication by the exactly
representable 1000 each round their exact result to the nearest double before
int() truncates. -/
def start_ms_f64 (padding : ℚ) (w : Word) : ℤ :=
  max (pyInt (fl64 (fl64 (w.start - padding) * 1000))) 0

/-- Line 92 under binary64 float semantics, rounding each operation as in
start_ms_f64. -/
def end_ms_f64 (audio_len : ℕ) (padding : ℚ) (w : Word) : ℤ :=
  min (pyInt (fl64 (fl64 (w.stop + padding) * 1000))) (audio_len : ℤ)

/-- One entry of os.listdir(OUTPUT_DIR): either a regular file, or one of the
per-upload subdirectories created on lines 65 to 68, listed with the names of
the files stored inside it. -/
inductive DirEntry
  | file (name : String)
  | dir (name : String) (contents : List String)
deriving Repr, DecidableEq

/-- Test os.path.isfile on a directory entry (line 158). -/
def DirEntry.isfile : DirEntry → Bool
  | .file _ => true
  | .dir _ _ => false

/-- All file names reachable in the output directory, one level of per-upload
subdirectories included. -/
def DirEntry.filesIn : DirEntry → List String
  | .file n => [n]
  | .dir _ cs => cs

/-- All persisted file names under the output directory. -/
def all_files (output_dir : List DirEntry) : List String :=
  (output_dir.map DirEntry.filesIn).flatten

/-- Endpoint clear_audio_files (lines 153 to 162): for every entry of
os.listdir(OUTPUT_DIR), remove it when os.path.isfile holds.  os.listdir does
not recurse and directories fail the isfile test, so exactly the top-level
regular files are removed and the per-upload subdirectories survive. -/
def clear_audio_files (output_dir : List DirEntry) : List DirEntry :=
  output_dir.filter fun e => !e.isfile

/-- Response body of a successful clear_audio_files call (line 160): a single
overall success message, nothing selective. -/
def clear_audio_files_response : String := "All audio files cleared."

/-- Timestamp sample in the strftime format %Y%m%d_%H%M%S_%f of line 47. -/
def ts0 : String := "20250101_120000_000000"

/-- Upload folder name sample in the format of lines 65 to 67. -/
def folder0 : String := "20250101_120000_000000_rec.wav"

/-- The word of the spec scenario: raw text with a leading space as whisper
produces it, start 1.0 s, end 1.4 s, stated with exact rational timestamps. -/
def hola_word : Word := { word := " hola", start := 1, stop := 7/5 }

/-- The scenario word as the running program holds it: whisper timestamps
arrive as binary64 doubles, 1.0 is exactly representable and 1.4 becomes the
nearest double. -/
def hola_word_f64 : Word := { word := " hola", start := 1, stop := fl64 (7/5) }

/-- A word lying entirely beyond the end of a 1 s audio buffer. -/
def tarde_word : Word := { word := "tarde", start := 2, stop := 21/10 }

/-- A word whose padded end, 1.3506 s plus 0.15 s, lands on 1500.6 ms, where
truncation and rounding disagree. -/
def si_word : Word := { word := "si", start := 1, stop := 6753/5000 }

/-- A degenerate word for the empty-clip case: it starts after a 1 s audio
buffer already ended. -/
def luego_word : Word := { word := "luego", start := 2, stop := 2 }

/-- An output directory holding one per-upload subdirectory that contains one
persisted clip file. -/
def sample_output_dir : List DirEntry :=
  [DirEntry.dir "20250101_120000_000000_rec.wav" ["20250101_120000_000001_word0_hola.wav"]]

/-! Helper lemmas about the Python primitives. -/

theorem pyInt_nonneg {q : ℚ} (h : 0 ≤ q) : 0 ≤ pyInt q := by
  rw [pyInt, if_neg (not_lt.mpr h)]
  exact (Int.floor_nonneg).mpr h

theorem pyInt_mono {q r : ℚ} (h : q ≤ r) : pyInt q ≤ pyInt r := by
  rw [pyInt, pyInt]
  by_cases hq : q < 0 <;> by_cases hr : r < 0
  · rw [if_pos hq, if_pos hr]
    exact Int.ceil_mono h
  · rw [if_pos hq, if_neg hr]
    calc ⌈q⌉ ≤ 0 := Int.ceil_le.mpr (by exact_mod_cast hq.le)
      _ ≤ ⌊r⌋ := (Int.floor_nonneg).mpr (not_lt.mp hr)
  · exact absurd (lt_of_le_of_lt h hr) hq
  · rw [if_neg hq, if_neg hr]
    exact Int.floor_mono h

theorem sliceIdx_of_nonneg {n : ℕ} {i : ℤ} (h : 0 ≤ i) :
    sliceIdx n i = min i.toNat n := by
  rw [sliceIdx, if_neg (not_lt.mpr h)]

theorem sliceIdx_le_sliceIdx {n : ℕ} {i j : ℤ} (hi : 0 ≤ i) (hij : i ≤ j) :
    sliceIdx n i ≤ sliceIdx n j := by
  rw [sliceIdx_of_nonneg hi, sliceIdx_of_nonneg (le_trans hi hij)]
  exact min_le_min (Int.toNat_le_toNat hij) le_rfl

/-! Helper lemmas about decimal representations, used for filename
uniqueness. -/

theorem decRepr_lt {n : ℕ} (h : n < 10) : decRepr n = [Nat.digitChar n] := by
  rw [decRepr]; simp [h]

theorem decRepr_ge {n : ℕ} (h : ¬ n < 10) :
    decRepr n = decRepr (n / 10) ++ [Nat.digitChar (n % 10)] := by
  rw [decRepr]; simp [h]

theorem toDigitsCore_eq_decRepr (f : ℕ) : ∀ (n : ℕ) (l : List Char), n < f →
    Nat.toDigitsCore 10 f n l = decRepr n ++ l := by
  induction f with
  | zero => intro n l h; omega
  | succ f ih =>
    intro n l hn
    rw [Nat.toDigitsCore]
    by_cases h10 : n < 10
    · have hz : n / 10 = 0 := Nat.div_eq_of_lt h10
      simp only [hz, if_pos rfl]
      rw [decRepr_lt h10]
      simp [Nat.mod_eq_of_lt h10]
    · have hz : n / 10 ≠ 0 := by
        intro hc
        have h2 := (Nat.div_eq_zero_iff (by omega : 0 < 10)).mp hc
        omega
      rw [if_neg hz, ih (n / 10) _ (by
        have : n / 10 < n := Nat.div_lt_self (by omega) (by omega)
        omega)]
      rw [decRepr_ge h10]
      simp

theorem decRepr_ne_nil (n : ℕ) : decRepr n ≠ [] := by
  by_cases h : n < 10
  · rw [decRepr_lt h]; simp
  · rw [decRepr_ge h]; simp

theorem digitChar_isDigit : ∀ d < 10, (Nat.digitChar d).isDigit = true := by decide

theorem digitChar_inj : ∀ d < 10, ∀ e < 10, Nat.digitChar d = Nat.digitChar e → d = e := by
  decide

theorem decRepr_digits (n : ℕ) : ∀ c ∈ decRepr n, c.isDigit = true := by
  induction n using Nat.strong_induction_on with
  | _ n ih =>
    by_cases h : n < 10
    · rw [decRepr_lt h]
      intro c hc; simp at hc; subst hc; exact digitChar_isDigit n h
    · rw [decRepr_ge h]
      intro c hc
      simp only [List.mem_append, List.mem_singleton] at hc
      rcases hc with hc | hc
      · exact ih (n / 10) (Nat.div_lt_self (by omega) (by omega)) c hc
      · subst hc; exact digitChar_isDigit _ (Nat.mod_lt _ (by omega))

theorem decRepr_inj : ∀ m n : ℕ, decRepr m = decRepr n → m = n := by
  intro m
  induction m using Nat.strong_induction_on with
  | _ m ih =>
    intro n h
    by_cases hm : m < 10 <;> by_cases hn : n < 10
    · rw [decRepr_lt hm, decRepr_lt hn] at h
      simp only [List.cons.injEq] at h
      exact digitChar_inj m hm n hn h.1
    · exfalso
      rw [decRepr_lt hm, decRepr_ge hn] at h
      have hl := congrArg List.length h
      simp at hl
      exact decRepr_ne_nil (n / 10) hl
    · exfalso
      rw [decRepr_ge hm, decRepr_lt hn] at h
      have hl := congrArg List.length h
      simp at hl
      exact decRepr_ne_nil (m / 10) hl
    · rw [decRepr_ge hm, decRepr_ge hn] at h
      have h' := congrArg List.reverse h
      simp only [List.reverse_append, List.reverse_singleton, List.singleton_append] at h'
      rw [List.cons.injEq] at h'
      obtain ⟨hd, ht⟩ := h'
      have h1 : m % 10 = n % 10 :=
        digitChar_inj _ (Nat.mod_lt _ (by omega)) _ (Nat.mod_lt _ (by omega)) hd
      have h3 : m / 10 = n / 10 :=
        ih (m / 10) (Nat.div_lt_self (by omega) (by omega)) (n / 10)
          (List.reverse_injective ht)
      omega

theorem repr_data (n : ℕ) : (Nat.repr n).data = decRepr n := by
  show (Nat.toDigits 10 n).asString.data = decRepr n
  rw [Nat.toDigits, toDigitsCore_eq_decRepr (n + 1) n [] (by omega)]
  simp [List.asString]

theorem isDigit_ne_underscore (c : Char) (h : c.isDigit = true) : c ≠ '_' := by
  intro hc; subst hc; simp [Char.isDigit] at h

theorem append_underscore_inj : ∀ (s₁ s₂ r₁ r₂ : List Char),
    (∀ c ∈ s₁, c ≠ '_') → (∀ c ∈ s₂, c ≠ '_') →
    s₁ ++ '_' :: r₁ = s₂ ++ '_' :: r₂ → s₁ = s₂ ∧ r₁ = r₂ := by
  intro s₁
  induction s₁ with
  | nil =>
    intro s₂ r₁ r₂ _ h₂ h
    cases s₂ with
    | nil => simpa using h
    | cons c s₂ =>
      exfalso
      simp only [List.nil_append, List.cons_append, List.cons.injEq] at h
      exact h₂ c (by simp) h.1.symm
  | cons c s₁ ih =>
    intro s₂ r₁ r₂ h₁ h₂ h
    cases s₂ with
    | nil =>
      exfalso
      simp only [List.cons_append, List.nil_append, List.cons.injEq] at h
      exact h₁ c (by simp) h.1
    | cons c' s₂ =>
      simp only [List.cons_append, List.cons.injEq] at h
      obtain ⟨rfl, h⟩ := h
      have hr := ih s₂ r₁ r₂ (fun x hx => h₁ x (by simp [hx])) (fun x hx => h₂ x (by simp [hx])) h
      exact ⟨by rw [hr.1], hr.2⟩

/-! Helper lemmas evaluating the binary64 roundings of the scenario values:
each one names the exact rational held by the corresponding CPython float. -/

theorem int_log_eval {r : ℚ} {e : ℤ} (hr : 0 < r)
    (h1 : ((2 : ℕ) : ℚ) ^ e ≤ r) (h2 : r < ((2 : ℕ) : ℚ) ^ (e + 1)) : Int.log 2 r = e := by
  have hA : e ≤ Int.log 2 r := (Int.zpow_le_iff_le_log (by norm_num) hr).mp h1
  have hB : Int.log 2 r < e + 1 := (Int.lt_zpow_iff_log_lt (by norm_num) hr).mp h2
  omega

theorem fl64_padding : fl64 ((3 : ℚ)/20) = 5404319552844595 / 2 ^ 55 := by
  have hlog : Int.log 2 ((3 : ℚ)/20) = -3 :=
    int_log_eval (by norm_num) (by norm_num) (by norm_num)
  rw [fl64, if_neg (by norm_num), if_neg (by norm_num), hlog]
  have harg : ((3 : ℚ)/20) * 2 ^ ((52 : ℤ) - (-3)) = 27021597764222976/5 := by norm_num
  have hf : ⌊(27021597764222976 : ℚ)/5⌋ = 5404319552844595 := by norm_num
  rw [harg, roundEven, hf]
  norm_num

theorem fl64_stop : fl64 ((7 : ℚ)/5) = 6305039478318694 / 2 ^ 52 := by
  have hlog : Int.log 2 ((7 : ℚ)/5) = 0 :=
    int_log_eval (by norm_num) (by norm_num) (by norm_num)
  rw [fl64, if_neg (by norm_num), if_neg (by norm_num), hlog]
  have harg : ((7 : ℚ)/5) * 2 ^ ((52 : ℤ) - 0) = 31525197391593472/5 := by norm_num
  have hf : ⌊(31525197391593472 : ℚ)/5⌋ = 6305039478318694 := by norm_num
  rw [harg, roundEven, hf]
  norm_num

theorem fl64_diff :
    fl64 (1 - (5404319552844595 : ℚ) / 2 ^ 55) = 7656119366529843 / 2 ^ 53 := by
  have hval : (1 - (5404319552844595 : ℚ) / 2 ^ 55) = 30624477466119373 / 2 ^ 55 := by
    norm_num
  rw [hval]
  have hlog : Int.log 2 ((30624477466119373 : ℚ) / 2 ^ 55) = -1 :=
    int_log_eval (by norm_num) (by norm_num) (by norm_num)
  rw [fl64, if_neg (by norm_num), if_neg (by norm_num), hlog]
  have harg : ((30624477466119373 : ℚ) / 2 ^ 55) * 2 ^ ((52 : ℤ) - (-1)) =
      30624477466119373/4 := by norm_num
  have hf : ⌊(30624477466119373 : ℚ)/4⌋ = 7656119366529843 := by norm_num
  rw [harg, roundEven, hf]
  norm_num

theorem fl64_start_prod :
    fl64 ((7656119366529843 : ℚ) / 2 ^ 53 * 1000) = 850 := by
  have hval : ((7656119366529843 : ℚ) / 2 ^ 53 * 1000) = 957014920816230375 / 2 ^ 50 := by
    norm_num
  rw [hval]
  have hlog : Int.log 2 ((957014920816230375 : ℚ) / 2 ^ 50) = 9 :=
    int_log_eval (by norm_num) (by norm_num) (by norm_num)
  rw [fl64, if_neg (by norm_num), if_neg (by norm_num), hlog]
  have harg : ((957014920816230375 : ℚ) / 2 ^ 50) * 2 ^ ((52 : ℤ) - 9) =
      957014920816230375/128 := by norm_num
  have hf : ⌊(957014920816230375 : ℚ)/128⌋ = 7476679068876799 := by norm_num
  rw [harg, roundEven, hf]
  norm_num

theorem fl64_sum :
    fl64 ((6305039478318694 : ℚ) / 2 ^ 52 + 5404319552844595 / 2 ^ 55) =
      6980579422424268 / 2 ^ 52 := by
  have hval : ((6305039478318694 : ℚ) / 2 ^ 52 + 5404319552844595 / 2 ^ 55) =
      55844635379394147 / 2 ^ 55 := by norm_num
  rw [hval]
  have hlog : Int.log 2 ((55844635379394147 : ℚ) / 2 ^ 55) = 0 :=
    int_log_eval (by norm_num) (by norm_num) (by norm_num)
  rw [fl64, if_neg (by norm_num), if_neg (by norm_num), hlog]
  have harg : ((55844635379394147 : ℚ) / 2 ^ 55) * 2 ^ ((52 : ℤ) - 0) =
      55844635379394147/8 := by norm_num
  have hf : ⌊(55844635379394147 : ℚ)/8⌋ = 6980579422424268 := by norm_num
  rw [harg, roundEven, hf]
  norm_num

theorem fl64_end_prod :
    fl64 ((6980579422424268 : ℚ) / 2 ^ 52 * 1000) = 6816972092211199 / 2 ^ 42 := by
  have hval : ((6980579422424268 : ℚ) / 2 ^ 52 * 1000) = 218143106950758375 / 2 ^ 47 := by
    norm_num
  rw [hval]
  have hlog : Int.log 2 ((218143106950758375 : ℚ) / 2 ^ 47) = 10 :=
    int_log_eval (by norm_num) (by norm_num) (by norm_num)
  rw [fl64, if_neg (by norm_num), if_neg (by norm_num), hlog]
  have harg : ((218143106950758375 : ℚ) / 2 ^ 47) * 2 ^ ((52 : ℤ) - 10) =
      218143106950758375/32 := by norm_num
  have hf : ⌊(218143106950758375 : ℚ)/32⌋ = 6816972092211199 := by norm_num
  rw [harg, roundEven, hf]
  norm_num

/-! Claim theorems. -/

/-- C1: the claim says segmentation yields exactly one (clip, metadata) pair
per input word, in order, with gap-free indices.  On the code as written this
is false: already for a one word transcription the loop stops with a
TypeError, because line 94 passes four arguments to save_word_audio, which
line 46 defines with three parameters, so zero pairs are produced.  This
theorem evaluates the embedded loop of lines 88 to 103 on a concrete one word
recognizer result. -/
theorem c1_first_word_raises_typeerror :
    transcribe_words ts0 folder0 (List.range 2000) [{ words := [hola_word] }] =
      Except.error PyErr.typeError := by
  simp [transcribe_words, words_of, process_words, call_save_word_audio,
    save_word_audio_call_argc, save_word_audio_arity]

/-- C2: whenever the recognizer result contains at least one word, the loop of
lines 88 to 103 raises TypeError at the save_word_audio call of line 94, four
arguments against the three parameters of line 46, so no clip and no metadata
record is produced for any word. -/
theorem c2_typeerror_whenever_words (α : Type) (timestamp upload_folder : String)
    (audio : List α) (segments : List Segment) (h : words_of segments ≠ []) :
    transcribe_words timestamp upload_folder audio segments =
      Except.error PyErr.typeError := by
  rw [transcribe_words]
  cases hw : words_of segments with
  | nil => exact absurd hw h
  | cons w ws =>
    simp [process_words, call_save_word_audio, save_word_audio_call_argc,
      save_word_audio_arity]

/-- Witness for C2 at a concrete one word recognizer result. -/
theorem c2_typeerror_whenever_words_witness :
    words_of [{ words := [hola_word] }] ≠ ([] : List Word) ∧
      transcribe_words ts0 folder0 (List.range 2000) [{ words := [hola_word] }] =
        Except.error PyErr.typeError := by
  have h : words_of [{ words := [hola_word] }] = [hola_word] := rfl
  refine ⟨by rw [h]; exact List.cons_ne_nil _ _, ?_⟩
  exact c2_typeerror_whenever_words ℕ ts0 folder0 (List.range 2000) _
    (by rw [h]; exact List.cons_ne_nil _ _)

/-- C7 fails on the code: the claim says the segmenter fails with InvalidInput
exactly when the padding is negative or the sample rate nonpositive, but lines
91 to 93 perform no validation at all.  With padding minus one the computation
still succeeds, refuting the only-if direction. -/
theorem c7_counterexample :
    ((-1 : ℚ) < 0) ∧
      segment ([0] : List ℤ) [{ word := "x", start := 1, stop := 1 }] (-1) =
        Except.ok [word_audio ([0] : List ℤ) (-1) { word := "x", start := 1, stop := 1 }] :=
  ⟨by norm_num, rfl⟩

/-- C7 amended: the segmentation computation of lines 91 to 93 never fails at
all, for every padding (negative included) and all timestamps; no InvalidInput
exists in the source.  Out-of-range timestamps are clamped, not rejected: the
start is clamped from below at 0 and the end from above at the audio length. -/
theorem c7_amended_segment_total (audio : List ℤ) (ws : List Word) (padding : ℚ) :
    segment audio ws padding = Except.ok (ws.map fun w => word_audio audio padding w) ∧
      ∀ w : Word, 0 ≤ start_ms padding w ∧
        end_ms audio.length padding w ≤ (audio.length : ℤ) :=
  ⟨rfl, fun _ => ⟨le_max_right _ _, min_le_right _ _⟩⟩

/-- C5 fails on the code: clips persist inside per-upload subdirectories of
OUTPUT_DIR (lines 65 to 68), but clear_audio_files (lines 153 to 162) removes
only entries passing os.path.isfile at the top level of OUTPUT_DIR, so a clip
stored in a subdirectory survives the bulk clear. -/
theorem c5_counterexample :
    clear_audio_files sample_output_dir = sample_output_dir ∧
      all_files (clear_audio_files sample_output_dir) =
        ["20250101_120000_000001_word0_hola.wav"] :=
  ⟨rfl, rfl⟩

/-- C5 amended: the bulk clear deletes exactly the regular files lying
directly in OUTPUT_DIR, reporting only overall success; per-upload
subdirectories and every file inside them are left untouched. -/
theorem c5_amended_clear_top_level_only (output_dir : List DirEntry) :
    (clear_audio_files output_dir).filter (fun e => e.isfile) = [] ∧
      (clear_audio_files output_dir).filter (fun e => !e.isfile) =
        output_dir.filter (fun e => !e.isfile) := by
  constructor
  · simp [clear_audio_files, List.filter_filter]
  · simp [clear_audio_files, List.filter_filter]

/-- C9: the clip contents produced by the loop are a pure function of the
audio, the word list and the padding.  Two runs over identical input yield,
word for word, identical sample content, whatever timestamps and upload
folders the two runs draw, even though these change the filenames. -/
theorem c9_content_deterministic (α : Type) (ts1 ts2 folder1 folder2 : String)
    (audio : List α) (padding : ℚ) (segments : List Segment) :
    (segment_run ts1 folder1 audio padding segments).map WordOut.clip =
      (segment_run ts2 folder2 audio padding segments).map WordOut.clip := by
  simp [segment_run, word_out, List.map_map, Function.comp]

/-- C3 fails on the code: for the word tarde, spanning 2.0 s to 2.1 s against
a 1 s audio buffer, line 91 clamps the start only from below and line 92
clamps the end only from above, giving start_ms 1850 and end_ms 1000, so the
claimed inequality between start and end samples is violated. -/
theorem c3_counterexample :
    ¬ start_ms PADDING_SEC tarde_word ≤ end_ms 1000 PADDING_SEC tarde_word := by
  have h1 : pyInt ((tarde_word.start - PADDING_SEC) * 1000) = 1850 := by
    rw [show tarde_word.start = 2 from rfl]
    norm_num [pyInt, PADDING_SEC]
  have h2 : pyInt ((tarde_word.stop + PADDING_SEC) * 1000) = 2250 := by
    rw [show tarde_word.stop = 21/10 from rfl]
    norm_num [pyInt, PADDING_SEC]
  rw [start_ms, end_ms, h1, h2]
  omega

/-- C3 amended: for nonnegative padding and a well formed word (nonnegative
start, start at most end), the clamped range satisfies start_ms at most end_ms
whenever the truncated padded start does not exceed the audio length; for a
word starting beyond the audio the inequality can fail, yet no negative length
clip is ever produced since the slice of line 93 is total. -/
theorem c3_amended_start_le_end (audio_len : ℕ) (padding : ℚ) (w : Word)
    (hp : 0 ≤ padding) (hw0 : 0 ≤ w.start) (hws : w.start ≤ w.stop)
    (hin : pyInt ((w.start - padding) * 1000) ≤ (audio_len : ℤ)) :
    start_ms padding w ≤ end_ms audio_len padding w := by
  have hmono : pyInt ((w.start - padding) * 1000) ≤ pyInt ((w.stop + padding) * 1000) :=
    pyInt_mono (mul_le_mul_of_nonneg_right (by linarith) (by norm_num))
  have hnn : 0 ≤ pyInt ((w.stop + padding) * 1000) :=
    pyInt_nonneg (mul_nonneg (by linarith) (by norm_num))
  rw [start_ms, end_ms]
  omega

/-- Witness for C3 amended at the scenario word of the spec. -/
theorem c3_amended_start_le_end_witness :
    (0 ≤ PADDING_SEC ∧ 0 ≤ hola_word.start ∧ hola_word.start ≤ hola_word.stop ∧
        pyInt ((hola_word.start - PADDING_SEC) * 1000) ≤ ((5000 : ℕ) : ℤ)) ∧
      start_ms PADDING_SEC hola_word ≤ end_ms 5000 PADDING_SEC hola_word := by
  have h1 : 0 ≤ PADDING_SEC := by norm_num [PADDING_SEC]
  have h2 : 0 ≤ hola_word.start := by
    rw [show hola_word.start = 1 from rfl]; norm_num
  have h3 : hola_word.start ≤ hola_word.stop := by
    rw [show hola_word.start = 1 from rfl, show hola_word.stop = 7/5 from rfl]
    norm_num
  have h4 : pyInt ((hola_word.start - PADDING_SEC) * 1000) ≤ ((5000 : ℕ) : ℤ) := by
    rw [show hola_word.start = 1 from rfl]
    norm_num [pyInt, PADDING_SEC]
  exact ⟨⟨h1, h2, h3, h4⟩, c3_amended_start_le_end 5000 PADDING_SEC hola_word h1 h2 h3 h4⟩

/-- C4 fails on the code: the spec formula rounds to nearest, while line 92
truncates with the Python builtin int.  For a word ending at 1.3506 s with
padding 0.15 s the padded end lands on 1500.6 ms, which the code truncates to
1500 while the spec formula at rate 1000 rounds to 1501. -/
theorem c4_counterexample :
    end_ms 5000 PADDING_SEC si_word ≠ spec_end_sample 5000 1000 PADDING_SEC si_word := by
  have h1 : pyInt ((si_word.stop + PADDING_SEC) * 1000) = 1500 := by
    rw [show si_word.stop = 6753/5000 from rfl]
    norm_num [pyInt, PADDING_SEC]
  have h2 : round ((si_word.stop + PADDING_SEC) * ((1000 : ℕ) : ℚ)) = 1501 := by
    rw [show si_word.stop = 6753/5000 from rfl]
    norm_num [round_eq, PADDING_SEC]
  rw [end_ms, spec_end_sample, h1, h2]
  omega

/-- C4 amended: the code computes boundaries in milliseconds with the Python
builtin int, truncation toward zero of binary64 float expressions, start_ms as
max(int((start - padding) * 1000), 0) and end_ms as
min(int((end + padding) * 1000), len(audio)); no rounding to nearest is
performed.  On the scenario of the spec, a 5.0 s buffer and the word from
1.0 s to 1.4 s with padding 0.15 s, the program evaluates
(1.4 + 0.15) * 1000 to the double 1549.9999999999998, so the clip spans 850 to
1549 and holds 699 milliseconds of audio, while the spec formula with round at
rate 1000 yields 850 to 1550 with length 700. -/
theorem c4_amended_scenario :
    start_ms_f64 PADDING_SEC_F64 hola_word_f64 = 850 ∧
      end_ms_f64 5000 PADDING_SEC_F64 hola_word_f64 = 1549 ∧
      (pySlice (List.range 5000) (start_ms_f64 PADDING_SEC_F64 hola_word_f64)
          (end_ms_f64 5000 PADDING_SEC_F64 hola_word_f64)).length = 699 ∧
      spec_start_sample 1000 PADDING_SEC hola_word = 850 ∧
      spec_end_sample 5000 1000 PADDING_SEC hola_word = 1550 := by
  have hstart : start_ms_f64 PADDING_SEC_F64 hola_word_f64 = 850 := by
    rw [start_ms_f64, show hola_word_f64.start = 1 from rfl,
      show PADDING_SEC_F64 = fl64 (3/20) from rfl, fl64_padding, fl64_diff, fl64_start_prod]
    have hp : pyInt (850 : ℚ) = 850 := by norm_num [pyInt]
    rw [hp]
    omega
  have hend : end_ms_f64 5000 PADDING_SEC_F64 hola_word_f64 = 1549 := by
    rw [end_ms_f64, show hola_word_f64.stop = fl64 (7/5) from rfl,
      show PADDING_SEC_F64 = fl64 (3/20) from rfl, fl64_stop, fl64_padding, fl64_sum,
      fl64_end_prod]
    have hp : pyInt ((6816972092211199 : ℚ) / 2 ^ 42) = 1549 := by norm_num [pyInt]
    rw [hp]
    omega
  have hrs : round ((hola_word.start - PADDING_SEC) * ((1000 : ℕ) : ℚ)) = 850 := by
    rw [show hola_word.start = 1 from rfl]
    norm_num [round_eq, PADDING_SEC]
  have hre : round ((hola_word.stop + PADDING_SEC) * ((1000 : ℕ) : ℚ)) = 1550 := by
    rw [show hola_word.stop = 7/5 from rfl]
    norm_num [round_eq, PADDING_SEC]
  refine ⟨hstart, hend, ?_, ?_, ?_⟩
  · rw [hstart, hend, pySlice, List.length_range]
    rw [sliceIdx_of_nonneg (by norm_num), sliceIdx_of_nonneg (by norm_num)]
    rw [List.length_drop, List.length_take, List.length_range]
    decide
  · rw [spec_start_sample, hrs]; omega
  · rw [spec_end_sample, hre]; omega

/-- C8: a word whose clamped range is degenerate, the end at most the start,
still yields a clip, the empty one: the slice of line 93 is total and the loop
does not fail there.  The hypotheses on the word end and padding hold for
every recognizer word under the data model of the spec. -/
theorem c8_degenerate_clip_empty (α : Type) (audio : List α) (padding : ℚ) (w : Word)
    (hp : 0 ≤ padding) (hw : 0 ≤ w.stop)
    (hdeg : end_ms audio.length padding w ≤ start_ms padding w) :
    word_audio audio padding w = [] := by
  have he0 : 0 ≤ end_ms audio.length padding w := by
    rw [end_ms]
    exact le_min (pyInt_nonneg (mul_nonneg (by linarith) (by norm_num)))
      (Int.natCast_nonneg _)
  rw [word_audio, pySlice]
  apply List.drop_eq_nil_of_le
  calc (List.take (sliceIdx audio.length (end_ms audio.length padding w)) audio).length
      ≤ sliceIdx audio.length (end_ms audio.length padding w) := by
        rw [List.length_take]; exact inf_le_left
    _ ≤ sliceIdx audio.length (start_ms padding w) := sliceIdx_le_sliceIdx he0 hdeg

/-- Witness for C8: a word starting after a 1 s buffer already ended has the
degenerate range 1000 at most 1850 and yields the empty clip. -/
theorem c8_degenerate_clip_empty_witness :
    (0 ≤ PADDING_SEC ∧ 0 ≤ luego_word.stop ∧
        end_ms (List.range 1000).length PADDING_SEC luego_word ≤
          start_ms PADDING_SEC luego_word) ∧
      word_audio (List.range 1000) PADDING_SEC luego_word = [] := by
  have h1 : 0 ≤ PADDING_SEC := by norm_num [PADDING_SEC]
  have h2 : 0 ≤ luego_word.stop := by
    rw [show luego_word.stop = 2 from rfl]; norm_num
  have h3 : end_ms (List.range 1000).length PADDING_SEC luego_word ≤
      start_ms PADDING_SEC luego_word := by
    have ha : pyInt ((luego_word.stop + PADDING_SEC) * 1000) = 2150 := by
      rw [show luego_word.stop = 2 from rfl]
      norm_num [pyInt, PADDING_SEC]
    have hb : pyInt ((luego_word.start - PADDING_SEC) * 1000) = 1850 := by
      rw [show luego_word.start = 2 from rfl]
      norm_num [pyInt, PADDING_SEC]
    rw [end_ms, start_ms, ha, hb, List.length_range]
    omega
  exact ⟨⟨h1, h2, h3⟩,
    c8_degenerate_clip_empty ℕ (List.range 1000) PADDING_SEC luego_word h1 h2 h3⟩

/-- C10: the metadata records of lines 95 to 101 report the raw recognizer
timestamps, untouched by padding and clamping; the padding influences only the
clip samples, never the reported start, end, stripped word text or index, and
the indices are exactly the gap-free positions 0, 1, 2 and so on. -/
theorem c10_metadata_raw_and_padding_free (α : Type) (ts folder : String)
    (audio : List α) (p q : ℚ) (segments : List Segment) :
    (segment_run ts folder audio p segments).map WordOut.info =
        (segment_run ts folder audio q segments).map WordOut.info ∧
      (segment_run ts folder audio p segments).map (fun o => o.info.start) =
        (words_of segments).map Word.start ∧
      (segment_run ts folder audio p segments).map (fun o => o.info.stop) =
        (words_of segments).map Word.stop ∧
      (segment_run ts folder audio p segments).map (fun o => o.info.word) =
        (words_of segments).map (fun w => pyStrip w.word) ∧
      (segment_run ts folder audio p segments).map (fun o => o.info.index) =
        List.range (words_of segments).length := by
  refine ⟨?_, ?_, ?_, ?_, ?_⟩
  · simp [segment_run, word_out, List.map_map, Function.comp]
  · simp only [segment_run, List.map_map, Function.comp]
    rw [show ((fun o => WordInfo.start (WordOut.info o)) ∘
        fun iw => word_out ts folder audio p iw.1 iw.2) =
        (Word.start ∘ Prod.snd) from rfl]
    rw [← List.map_map, List.enum_map_snd]
  · simp only [segment_run, List.map_map, Function.comp]
    rw [show ((fun o => WordInfo.stop (WordOut.info o)) ∘
        fun iw => word_out ts folder audio p iw.1 iw.2) =
        (Word.stop ∘ Prod.snd) from rfl]
    rw [← List.map_map, List.enum_map_snd]
  · simp only [segment_run, List.map_map, Function.comp]
    rw [show ((fun o => WordInfo.word (WordOut.info o)) ∘
        fun iw => word_out ts folder audio p iw.1 iw.2) =
        ((fun w => pyStrip w.word) ∘ Prod.snd) from rfl]
    rw [← List.map_map, List.enum_map_snd]
  · simp only [segment_run, List.map_map, Function.comp]
    rw [show ((fun o => WordInfo.index (WordOut.info o)) ∘
        fun iw => word_out ts folder audio p iw.1 iw.2) = Prod.fst from rfl]
    rw [List.enum_map_fst]

/-- C6 fails on the code across invocations: the filename of lines 47 to 49
depends only on a strftime timestamp, the word index and the sanitised word
text.  Two concurrently executing invocations that draw the same microsecond
timestamp produce, at word index 0, identical filenames even for genuinely
different raw words, here two texts whose sanitisation collapses to the same
string, so the scheme is not collision-free across invocations. -/
theorem c6_counterexample :
    word_filename ts0 0 "hola." = word_filename ts0 0 "hola," ∧
      ("hola." : String) ≠ "hola," :=
  ⟨rfl, by decide⟩

/-- C6 amended: within a single invocation filenames never collide: the
strftime timestamps of the calls all have the same 22 character length, and
two words of one invocation carry distinct word_counter values, whose decimal
digits are delimited by fixed underscores in the filename; across invocations
uniqueness relies on timestamp distinctness alone and is not guaranteed. -/
theorem c6_amended_unique_within_invocation (ts1 ts2 : String) (i j : ℕ)
    (t1 t2 : String) (hlen : ts1.length = ts2.length) (hij : i ≠ j) :
    word_filename ts1 i t1 ≠ word_filename ts2 j t2 := by
  intro heq
  apply hij
  have hd := congrArg String.data heq
  simp only [word_filename, String.data_append, List.append_assoc] at hd
  obtain ⟨-, htail⟩ := List.append_inj hd (show ts1.data.length = ts2.data.length from hlen)
  have htail2 := List.append_cancel_left htail
  simp only [List.singleton_append] at htail2
  have hdig : ∀ n : ℕ, ∀ c ∈ (toString n).data, c ≠ '_' := by
    intro n c hc
    apply isDigit_ne_underscore
    rw [show (toString n) = Nat.repr n from rfl, repr_data] at hc
    exact decRepr_digits n c hc
  obtain ⟨hrepr, -⟩ :=
    append_underscore_inj _ _ _ _ (hdig i) (hdig j) htail2
  apply decRepr_inj i j
  rw [← repr_data, ← repr_data]
  exact hrepr

/-- Witness for C6 amended: two words of one invocation, indices 0 and 1 with
the same timestamp and the same text, get distinct filenames. -/
theorem c6_amended_unique_within_invocation_witness :
    (ts0.length = ts0.length ∧ (0 : ℕ) ≠ 1) ∧
      word_filename ts0 0 "hola" ≠ word_filename ts0 1 "hola" :=
  ⟨⟨rfl, by decide⟩,
    c6_amended_unique_within_invocation ts0 ts0 0 1 "hola" "hola" rfl (by decide)⟩

end WhisperApi
